import Mathlib

/-!
Shallow embedding of `amethyst-bsp` (`src/lib.rs`), the BSP → prefab
conversion pipeline: per-cluster face collection, sort by texture name,
grouping by texture index, texture-resolution / draw-eligibility
filtering, vertex transcoding, and prefab-node emission.

The source's `faces.sort_unstable_by_key(..)` gives no stability
guarantee, so the import is parameterised by a `sorter` function; the
predicate `validSorter` states exactly the contract of the unstable
sort (the result is a permutation of the input, sorted by the key
`face.texture().map(|t| t.name)`).  `sortFaces` is one concrete
(insertion-sort) instantiation used for concrete evaluations.
-/

/-- Scalar components of positions/normals (`f32` in the source; the pipeline
only rearranges components and negates one of them, so integers model the
dataflow exactly). -/
structure Vec3 where
  x : Int
  y : Int
  z : Int
deriving DecidableEq

/-- Two-component texture coordinate. -/
structure Vec2 where
  u : Int
  v : Int
deriving DecidableEq

/-- A source vertex exposed by the world model: `vert.position`,
`vert.normal`, `vert.surface_texcoord`. -/
structure Vertex where
  position : Vec3
  normal : Vec3
  surface_texcoord : Vec2
deriving DecidableEq

/-- A face of the world model: `face.texture` is the raw texture index
(`i32` in the source), `face.vertices()` the vertex sequence. -/
structure Face where
  texture : Int
  vertices : List Vertex
deriving DecidableEq

/-- Texture surface flags; the pipeline only consults `flags.should_draw()`. -/
structure TextureFlags where
  should_draw : Bool
deriving DecidableEq

/-- A world texture: a name and its flags. -/
structure Texture where
  name : String
  flags : TextureFlags
deriving DecidableEq

/-- A leaf, exposing its faces (`bsp::Handle::new(&bsp, leaf).faces()`). -/
structure Leaf where
  faces : List Face
deriving DecidableEq

/-- A standalone model, exposing its faces (`model.faces()`). -/
structure Model where
  faces : List Face
deriving DecidableEq

/-- The parsed world (`Bsp`), as consumed by the pipeline:
`bsp.texture(i)` lookups, `bsp.leaves.clusters()` yielding
`(id, member leaves)` pairs, and `bsp.models()`. -/
structure World where
  textures : List Texture
  clusters : List (Int × List Leaf)
  models : List Model

/-- `bsp.texture(tex as usize)`: the source casts the `i32` index to `usize`
(a negative index becomes a huge value, hence always out of range) and
returns `None` when out of bounds. -/
def World.texture (w : World) (i : Int) : Option Texture :=
  if i < 0 then none else w.textures.get? i.toNat

/-- Placeholder for decoded texture pixel data. -/
structure TextureData where
  id : Nat
deriving DecidableEq

/-- The bundled placeholder image (`MISSING_TEXTURE`), decoded once. -/
def MISSING_TEXTURE : TextureData := ⟨0⟩

/-- An error surfaced by the external texture loader. -/
structure LoadError where
  msg : String
deriving DecidableEq

/-- `MISSING_TEXTURE_FUNCTION`: on any external resolution error, return the
bundled placeholder (`|_| Ok(MISSING_TEXTURE.clone())`). -/
def MISSING_TEXTURE_FUNCTION : LoadError → Except LoadError TextureData :=
  fun _ => Except.ok MISSING_TEXTURE

/-- `TextureMetadata::srgb()` is the only metadata the pipeline uses. -/
inductive TextureMetadata where
  | srgb
deriving DecidableEq

/-- The texture reference attached to an emitted node (`AssetPrefab`); the
pipeline only ever constructs the `FileOrElse` variant. -/
inductive AssetPrefab where
  | file (name : String) (meta : TextureMetadata)
  | fileOrElse (name : String) (meta : TextureMetadata)
      (orElse : LoadError → Except LoadError TextureData)

/-- Resolution-time semantics of an `AssetPrefab` reference: try the external
loader; for `FileOrElse`, on failure apply the stored fallback function. -/
def AssetPrefab.resolve (load : String → Except LoadError TextureData) :
    AssetPrefab → Except LoadError TextureData
  | .file n _ => load n
  | .fileOrElse n _ orElse =>
    match load n with
    | .ok d => Except.ok d
    | .error e => orElse e

/-- Output vertex layout (`PosNormTex`). -/
structure PosNormTex where
  position : Vec3
  normal : Vec3
  tex_coord : Vec2
deriving DecidableEq

/-- One prefab element (`BspPrefabElement`), with `Default` giving `none`
for every field. -/
structure BspPrefabElement where
  cluster : Option Int := none
  texture : Option AssetPrefab := none
  mesh : Option (List PosNormTex) := none

/-- One prefab entity: optional parent index plus optional data. -/
structure PrefabEntity where
  parent : Option Nat
  data : Option BspPrefabElement

/-- The prefab under construction. -/
structure Prefab where
  entities : List PrefabEntity

/-- `Prefab::new()` starts with a single root entity (index `0`) holding no
data. -/
def Prefab.new : Prefab :=
  ⟨[⟨none, none⟩]⟩

/-- `prefab.add(parent, data)` appends an entity and returns its index. -/
def Prefab.add (p : Prefab) (parent : Option Nat) (data : Option BspPrefabElement) :
    Nat × Prefab :=
  (p.entities.length, ⟨p.entities ++ [⟨parent, data⟩]⟩)

/-- The vertex transcoding applied to every emitted vertex:
position `[p[0], p[2], -p[1]]`, normal `[n[0], n[2], -n[1]]`, texture
coordinate passed through. -/
def transcodeVertex (vert : Vertex) : PosNormTex :=
  { position := ⟨vert.position.x, vert.position.z, -vert.position.y⟩
    normal := ⟨vert.normal.x, vert.normal.z, -vert.normal.y⟩
    tex_coord := vert.surface_texcoord }

/-- Strict lexicographic comparison of UTF-8 strings by scalar value
(UTF-8 byte order coincides with scalar-value order). -/
def charsLtb : List Char → List Char → Bool
  | _, [] => false
  | [], _ :: _ => true
  | a :: as, b :: bs =>
    if a.toNat < b.toNat then true
    else if b.toNat < a.toNat then false
    else charsLtb as bs

/-- Non-strict string comparison, as Rust's `str` `Ord` (`a ≤ b ↔ ¬ b < a`). -/
def strLeb (a b : String) : Bool :=
  !(charsLtb b.data a.data)

/-- The sort key of `faces.sort_unstable_by_key(|face| face.texture().map(|t| t.name))`:
the name of the face's texture, if its index resolves. -/
def sortKey (w : World) (f : Face) : Option String :=
  (w.texture f.texture).map Texture.name

/-- Order on sort keys, matching Rust's `Ord` for `Option`: `None` sorts
before `Some`, names lexicographically. -/
def keyLeb : Option String → Option String → Bool
  | none, _ => true
  | some _, none => false
  | some x, some y => strLeb x y

/-- Face comparison induced by the sort key. -/
def faceLe (w : World) (f g : Face) : Prop :=
  keyLeb (sortKey w f) (sortKey w g) = true

instance faceLe.instDecidable (w : World) : DecidableRel (faceLe w) :=
  fun _ _ => instDecidableEqBool _ _

/-- The contract of `sort_unstable_by_key`: the result is some permutation of
the input that is sorted by the key; the relative order of equal-key
elements is NOT specified. -/
def validSorter (w : World) (s : List Face → List Face) : Prop :=
  ∀ fs, (s fs).Perm fs ∧ (s fs).Pairwise (faceLe w)

/-- Insertion step of the concrete reference sort. -/
def insertFace (w : World) (f : Face) : List Face → List Face
  | [] => [f]
  | g :: gs =>
    if keyLeb (sortKey w f) (sortKey w g) then f :: g :: gs
    else g :: insertFace w f gs

/-- A concrete sorter satisfying `validSorter` (insertion sort by the key). -/
def sortFaces (w : World) : List Face → List Face
  | [] => []
  | f :: fs => insertFace w f (sortFaces w fs)

/-- One step of adjacent grouping: prepend a face to the accumulated group
list, merging it into the first group when the texture index matches. -/
def groupStep (f : Face) (acc : List (Int × List Face)) : List (Int × List Face) :=
  match acc with
  | [] => [(f.texture, [f])]
  | (k, g) :: rest =>
    if f.texture == k then (k, f :: g) :: rest
    else (f.texture, [f]) :: (k, g) :: rest

/-- `itertools`' `group_by(|face| face.texture)`: maximal adjacent runs of
equal texture index, each tagged with its key. -/
def groupByTex (l : List Face) : List (Int × List Face) :=
  l.foldr groupStep []

/-- The element emitted for one surviving texture group: the fallback-wired
texture reference and the transcoded vertices of the group's faces. -/
def batchElem (tex : Texture) (g : List Face) : BspPrefabElement :=
  { cluster := none
    texture := some (.fileOrElse tex.name .srgb MISSING_TEXTURE_FUNCTION)
    mesh := some (g.flatMap (fun face => face.vertices.map transcodeVertex)) }

/-- Body of the per-group loop: resolve the group's texture index (`continue`
when it does not resolve), check `should_draw` (`continue` when false), and
otherwise add a node with the batch data under the given parent. -/
def emitGroup (w : World) (parent : Option Nat) (p : Prefab) (g : Int × List Face) : Prefab :=
  match w.texture g.1 with
  | none => p
  | some tex =>
    if tex.flags.should_draw then
      (p.add parent (some (batchElem tex g.2))).2
    else p

/-- The faces collected for one cluster: the concatenation of its leaves'
faces (`faces.extend(cluster.into_iter().flat_map(|leaf| ...faces()))`). -/
def clusterFaces (c : Int × List Leaf) : List Face :=
  c.2.flatMap Leaf.faces

/-- Body of the per-cluster loop: add the cluster node (parent `Some(0)`),
collect + sort the cluster's faces, then run the per-group loop with the
cluster node's index as parent. -/
def emitCluster (w : World) (sorter : List Face → List Face) (p : Prefab)
    (c : Int × List Leaf) : Prefab :=
  let r := p.add (some 0) (some { cluster := some c.1 })
  (groupByTex (sorter (clusterFaces c))).foldl (emitGroup w (some r.1)) r.2

/-- Body of the per-model loop: sort the model's faces and run the per-group
loop with no parent. -/
def emitModel (w : World) (sorter : List Face → List Face) (p : Prefab)
    (m : Model) : Prefab :=
  (groupByTex (sorter m.faces)).foldl (emitGroup w none) p

/-- The whole prefab import (`SimpleFormat<Prefab<BspPrefabElement>>::import`)
after the decode step: loop over clusters, then over models. -/
def importPrefab (w : World) (sorter : List Face → List Face) : Prefab :=
  w.models.foldl (emitModel w sorter)
    (w.clusters.foldl (emitCluster w sorter) Prefab.new)

/-- The per-group filter, as a function: `none` when the group's texture
index does not resolve or the texture is not draw-eligible, otherwise the
emitted element. -/
def keepGroup (w : World) (g : Int × List Face) : Option BspPrefabElement :=
  match w.texture g.1 with
  | none => none
  | some tex => if tex.flags.should_draw then some (batchElem tex g.2) else none

/-- The elements emitted for one sorted face sequence: one per surviving
texture group, in group order. -/
def survivingBatches (w : World) (sorted : List Face) : List BspPrefabElement :=
  (groupByTex sorted).filterMap (keepGroup w)

/-- The root entity created by `Prefab::new()`. -/
def rootEntity : PrefabEntity := ⟨none, none⟩

/-- The structural node emitted for a cluster id. -/
def clusterEntity (id : Int) : PrefabEntity :=
  ⟨some 0, some { cluster := some id }⟩

/-- A renderable node holding one batch under the given parent. -/
def batchEntity (parent : Option Nat) (b : BspPrefabElement) : PrefabEntity :=
  ⟨parent, some b⟩

/-- The entities contributed by the cluster loop when it starts writing at
absolute index `n`: for each cluster, its structural node followed by its
surviving batches, parented to the structural node's index. -/
def clusterBlocks (w : World) (sorter : List Face → List Face) :
    Nat → List (Int × List Leaf) → List PrefabEntity
  | _, [] => []
  | n, c :: cs =>
    (clusterEntity c.1 ::
      (survivingBatches w (sorter (clusterFaces c))).map (batchEntity (some n))) ++
      clusterBlocks w sorter
        (n + (1 + (survivingBatches w (sorter (clusterFaces c))).length)) cs

/-- The entities contributed by the model loop: per model, its surviving
batches as top-level (parentless) nodes. -/
def modelEntities (w : World) (sorter : List Face → List Face) : List PrefabEntity :=
  w.models.flatMap (fun m => (survivingBatches w (sorter m.faces)).map (batchEntity none))

/-- A face reachable in the world: via some leaf of some cluster, or via
some model. -/
def faceOfWorld (w : World) (f : Face) : Prop :=
  (∃ c ∈ w.clusters, ∃ l ∈ c.2, f ∈ l.faces) ∨ (∃ m ∈ w.models, f ∈ m.faces)

/-- Decidable test for a cluster node carrying a given id. -/
def isClusterNodeId (id : Int) (e : PrefabEntity) : Bool :=
  match e.data with
  | some d => d.cluster == some id
  | none => false

/-- A throwaway vertex whose components are all derived from one integer,
used to build small concrete worlds. -/
def vtx (n : Int) : Vertex :=
  ⟨⟨n, n, n⟩, ⟨n, n, n⟩, ⟨n, n⟩⟩

/-- A world whose texture table has two entries with the SAME name `"A"`
(indices `0` and `1`), and one cluster whose faces reference indices
`0, 1, 0` in that order. -/
def dupNameWorld : World :=
  { textures := [⟨"A", ⟨true⟩⟩, ⟨"A", ⟨true⟩⟩]
    clusters := [(0, [⟨[⟨0, [vtx 1]⟩, ⟨1, [vtx 2]⟩, ⟨0, [vtx 3]⟩]⟩])]
    models := [] }

/-- First face of the equal-key pair used to exhibit sort instability. -/
def faceX : Face := ⟨0, [vtx 1]⟩

/-- Second face of the equal-key pair used to exhibit sort instability. -/
def faceY : Face := ⟨0, [vtx 2]⟩

/-- A world with one eligible texture and one cluster containing the two
equal-key faces `faceX, faceY` in that order. -/
def eqKeyWorld : World :=
  { textures := [⟨"A", ⟨true⟩⟩]
    clusters := [(0, [⟨[faceX, faceY]⟩])]
    models := [] }

/-- A sorter satisfying the unstable-sort contract that swaps the two
equal-key faces of `eqKeyWorld` (and sorts anything else with the
reference sort). -/
def swapSorter : List Face → List Face :=
  fun fs => if fs = [faceX, faceY] then [faceY, faceX] else sortFaces eqKeyWorld fs

/-- A world with one draw-eligible texture and one cluster face that has an
empty vertex sequence. -/
def emptyFaceWorld : World :=
  { textures := [⟨"T", ⟨true⟩⟩]
    clusters := [(0, [⟨[⟨0, []⟩]⟩])]
    models := [] }

/-- The cluster of `exampleWorld`: id `7`, one leaf with a `"brick"` face,
a `"sky"` face and a face whose texture index `5` is out of range. -/
def exampleCluster : Int × List Leaf :=
  (7, [⟨[⟨0, [⟨⟨1, 2, 3⟩, ⟨4, 5, 6⟩, ⟨7, 8⟩⟩]⟩, ⟨1, [vtx 9]⟩, ⟨5, [vtx 10]⟩]⟩])

/-- A small world in the style of the spec's end-to-end example: one cluster
(id `7`) with a draw-eligible `"brick"` face, a non-eligible `"sky"` face,
and a face whose texture index `5` is out of range. -/
def exampleWorld : World :=
  { textures := [⟨"brick", ⟨true⟩⟩, ⟨"sky", ⟨false⟩⟩]
    clusters := [exampleCluster]
    models := [] }

/-- A world with no clusters and two models whose faces share one
draw-eligible texture. -/
def twoModelWorld : World :=
  { textures := [⟨"wall", ⟨true⟩⟩]
    clusters := []
    models := [⟨[⟨0, [vtx 1]⟩]⟩, ⟨[⟨0, [vtx 2]⟩]⟩] }

/-- A world with one cluster that has no leaves at all. -/
def emptyClusterWorld : World :=
  { textures := []
    clusters := [(3, [])]
    models := [] }


theorem charsLtb_irrefl : ∀ l : List Char, charsLtb l l = false
  | [] => rfl
  | a :: as => by
    simp only [charsLtb, Nat.lt_irrefl, if_false]
    exact charsLtb_irrefl as

theorem charsLtb_trans : ∀ a b c : List Char,
    charsLtb a b = true → charsLtb b c = true → charsLtb a c = true
  | _, b, [] => by intro _ h2; cases b <;> simp [charsLtb] at h2
  | [], [], _ :: _ => by intro h1 _; simp [charsLtb] at h1
  | _ :: _, [], _ :: _ => by intro h1 _; simp [charsLtb] at h1
  | [], _ :: _, _ :: _ => by intro _ _; rfl
  | a :: as, b :: bs, c :: cs => by
    intro h1 h2
    simp only [charsLtb] at h1 h2 ⊢
    by_cases hab : a.toNat < b.toNat <;> by_cases hba : b.toNat < a.toNat <;>
      simp [hab, hba] at h1 <;>
      by_cases hbc : b.toNat < c.toNat <;> by_cases hcb : c.toNat < b.toNat <;>
      simp [hbc, hcb] at h2 <;>
      first
      | omega
      | (have hac : a.toNat < c.toNat := by omega
         simp [hac])
      | (have h3 : ¬ a.toNat < c.toNat := by omega
         have h4 : ¬ c.toNat < a.toNat := by omega
         simp [h3, h4]
         exact charsLtb_trans as bs cs h1 h2)

theorem charsLtb_total : ∀ a b : List Char,
    charsLtb a b = true ∨ a = b ∨ charsLtb b a = true
  | [], [] => Or.inr (Or.inl rfl)
  | [], _ :: _ => Or.inl rfl
  | _ :: _, [] => Or.inr (Or.inr rfl)
  | a :: as, b :: bs => by
    rcases Nat.lt_trichotomy a.toNat b.toNat with hab | hab | hab
    · exact Or.inl (by simp [charsLtb, hab])
    · have hchar : a = b := by
        have := congrArg Char.ofNat hab
        simpa [Char.ofNat_toNat] using this
      subst hchar
      rcases charsLtb_total as bs with h | h | h
      · exact Or.inl (by simp [charsLtb, Nat.lt_irrefl, h])
      · exact Or.inr (Or.inl (by rw [h]))
      · exact Or.inr (Or.inr (by simp [charsLtb, Nat.lt_irrefl, h]))
    · exact Or.inr (Or.inr (by simp [charsLtb, hab]))

theorem charsLtb_asymm (a b : List Char) (h : charsLtb a b = true) :
    charsLtb b a = false := by
  cases hv : charsLtb b a with
  | false => rfl
  | true =>
    have := charsLtb_trans _ _ _ h hv
    rw [charsLtb_irrefl] at this
    exact absurd this (by simp)

theorem strLeb_refl (a : String) : strLeb a a = true := by
  simp [strLeb, charsLtb_irrefl]

theorem strLeb_total (a b : String) : strLeb a b = true ∨ strLeb b a = true := by
  rcases charsLtb_total a.data b.data with h | h | h
  · left
    simp [strLeb, charsLtb_asymm _ _ h]
  · left
    simp [strLeb, h, charsLtb_irrefl]
  · right
    simp [strLeb, charsLtb_asymm _ _ h]

theorem strLeb_trans (a b c : String) (h1 : strLeb a b = true) (h2 : strLeb b c = true) :
    strLeb a c = true := by
  simp only [strLeb, Bool.not_eq_true'] at h1 h2 ⊢
  cases hv : charsLtb c.data a.data with
  | false => rfl
  | true =>
    rcases charsLtb_total c.data b.data with h | h | h
    · rw [h] at h2; exact absurd h2 (by simp)
    · rw [← h, hv] at h1; exact absurd h1 (by simp)
    · have := charsLtb_trans _ _ _ h hv
      rw [this] at h1
      exact absurd h1 (by simp)

theorem strLeb_antisymm (a b : String) (h1 : strLeb a b = true) (h2 : strLeb b a = true) :
    a = b := by
  simp only [strLeb, Bool.not_eq_true'] at h1 h2
  rcases charsLtb_total a.data b.data with h | h | h
  · rw [h] at h2; exact absurd h2 (by simp)
  · exact congrArg String.mk h
  · rw [h] at h1; exact absurd h1 (by simp)

theorem keyLeb_refl (k : Option String) : keyLeb k k = true := by
  cases k with
  | none => rfl
  | some s => simpa [keyLeb] using strLeb_refl s

theorem keyLeb_total (a b : Option String) : keyLeb a b = true ∨ keyLeb b a = true := by
  cases a <;> cases b <;> simp [keyLeb]
  exact strLeb_total _ _

theorem keyLeb_trans (a b c : Option String) (h1 : keyLeb a b = true)
    (h2 : keyLeb b c = true) : keyLeb a c = true := by
  cases a <;> cases b <;> cases c <;> simp_all [keyLeb]
  exact strLeb_trans _ _ _ h1 h2

theorem keyLeb_antisymm (a b : Option String) (h1 : keyLeb a b = true)
    (h2 : keyLeb b a = true) : a = b := by
  cases a <;> cases b <;> simp_all [keyLeb]
  exact strLeb_antisymm _ _ h1 h2

theorem sortKey_congr (w : World) {f g : Face} (h : f.texture = g.texture) :
    sortKey w f = sortKey w g := by
  simp [sortKey, h]

theorem faceLe_total (w : World) (f g : Face) : faceLe w f g ∨ faceLe w g f :=
  keyLeb_total _ _

theorem faceLe_trans (w : World) {f g h : Face} (h1 : faceLe w f g) (h2 : faceLe w g h) :
    faceLe w f h :=
  keyLeb_trans _ _ _ h1 h2

theorem insertFace_perm (w : World) (f : Face) :
    ∀ l, (insertFace w f l).Perm (f :: l)
  | [] => List.Perm.refl _
  | g :: gs => by
    simp only [insertFace]
    split
    · exact List.Perm.refl _
    · exact ((insertFace_perm w f gs).cons g).trans (List.Perm.swap f g gs)

theorem sortFaces_perm (w : World) : ∀ l, (sortFaces w l).Perm l
  | [] => List.Perm.refl _
  | f :: l => (insertFace_perm w f (sortFaces w l)).trans ((sortFaces_perm w l).cons f)

theorem insertFace_pairwise (w : World) (f : Face) :
    ∀ {l}, l.Pairwise (faceLe w) → (insertFace w f l).Pairwise (faceLe w) := by
  intro l
  induction l with
  | nil => intro _; exact List.pairwise_singleton _ _
  | cons g gs ih =>
    intro hp
    rw [List.pairwise_cons] at hp
    obtain ⟨hg, hgs⟩ := hp
    simp only [insertFace]
    split
    · rename_i hle
      rw [List.pairwise_cons]
      refine ⟨?_, List.pairwise_cons.mpr ⟨hg, hgs⟩⟩
      intro x hx
      rcases List.mem_cons.mp hx with rfl | hx
      · exact hle
      · exact faceLe_trans w hle (hg x hx)
    · rename_i hnle
      rw [List.pairwise_cons]
      constructor
      · intro x hx
        rcases List.mem_cons.mp ((insertFace_perm w f gs).mem_iff.mp hx) with rfl | h
        · rcases faceLe_total w x g with h | h
          · exact absurd h hnle
          · exact h
        · exact hg x h
      · exact ih hgs

theorem sortFaces_pairwise (w : World) : ∀ l, (sortFaces w l).Pairwise (faceLe w)
  | [] => List.Pairwise.nil
  | f :: l => insertFace_pairwise w f (sortFaces_pairwise w l)

theorem sortFaces_valid (w : World) : validSorter w (sortFaces w) :=
  fun fs => ⟨sortFaces_perm w fs, sortFaces_pairwise w fs⟩

theorem groupByTex_join : ∀ l : List Face, (groupByTex l).flatMap Prod.snd = l
  | [] => rfl
  | f :: l => by
    have ih := groupByTex_join l
    show (groupStep f (groupByTex l)).flatMap Prod.snd = f :: l
    cases hgl : groupByTex l with
    | nil =>
      rw [hgl] at ih
      simp only [List.flatMap_nil] at ih
      simp [groupStep, ← ih]
    | cons p rest =>
      rw [hgl] at ih
      obtain ⟨k, g⟩ := p
      simp only [groupStep]
      split
      · simp_all
      · simp_all

theorem groupByTex_mem : ∀ (l : List Face) (p : Int × List Face), p ∈ groupByTex l →
    p.2 ≠ [] ∧ ∀ x ∈ p.2, x.texture = p.1
  | [], p, h => absurd h (List.not_mem_nil p)
  | f :: l, p, h => by
    have h' : p ∈ groupStep f (groupByTex l) := h
    cases hgl : groupByTex l with
    | nil =>
      rw [hgl] at h'
      simp only [groupStep, List.mem_singleton] at h'
      subst h'
      exact ⟨by simp, by simp⟩
    | cons q rest =>
      rw [hgl] at h'
      obtain ⟨k, g⟩ := q
      have hkg : ((k, g) : Int × List Face) ∈ groupByTex l := by
        rw [hgl]; exact List.mem_cons_self _ _
      simp only [groupStep] at h'
      split at h'
      · rename_i heq
        rcases List.mem_cons.mp h' with rfl | hmem
        · refine ⟨by simp, ?_⟩
          intro x hx
          rcases List.mem_cons.mp hx with rfl | hx
          · exact eq_of_beq heq
          · exact (groupByTex_mem l (k, g) hkg).2 x hx
        · exact groupByTex_mem l p (by rw [hgl]; exact List.mem_cons_of_mem _ hmem)
      · rcases List.mem_cons.mp h' with rfl | hmem
        · exact ⟨by simp, by simp⟩
        · exact groupByTex_mem l p (by rw [hgl]; exact hmem)

theorem groupByTex_decomp : ∀ (l : List Face) (p : Int × List Face), p ∈ groupByTex l →
    ∃ pre post, l = pre ++ p.2 ++ post
  | [], p, h => absurd h (List.not_mem_nil p)
  | f :: l, p, h => by
    have h' : p ∈ groupStep f (groupByTex l) := h
    have ih := groupByTex_decomp l
    cases hgl : groupByTex l with
    | nil =>
      rw [hgl] at h'
      simp only [groupStep, List.mem_singleton] at h'
      subst h'
      have hjoin := groupByTex_join l
      rw [hgl] at hjoin
      simp only [List.flatMap_nil] at hjoin
      exact ⟨[], [], by simp [← hjoin]⟩
    | cons q rest =>
      rw [hgl] at h'
      obtain ⟨k, g⟩ := q
      have hjoin := groupByTex_join l
      rw [hgl] at hjoin
      simp only [groupStep] at h'
      split at h'
      · rcases List.mem_cons.mp h' with rfl | hmem
        · refine ⟨[], rest.flatMap Prod.snd, ?_⟩
          simp only [List.nil_append]
          rw [List.cons_append]
          congr 1
          rw [← hjoin]
          simp
        · obtain ⟨pre, post, hdec⟩ :=
            ih p (by rw [hgl]; exact List.mem_cons_of_mem _ hmem)
          exact ⟨f :: pre, post, by simp [hdec]⟩
      · rcases List.mem_cons.mp h' with rfl | hmem
        · exact ⟨[], l, by simp⟩
        · obtain ⟨pre, post, hdec⟩ := ih p (by rw [hgl]; exact hmem)
          exact ⟨f :: pre, post, by simp [hdec]⟩

theorem groupByTex_mem_of_mem_group {l : List Face} {p : Int × List Face}
    (hp : p ∈ groupByTex l) {x : Face} (hx : x ∈ p.2) : x ∈ l := by
  obtain ⟨pre, post, rfl⟩ := groupByTex_decomp l p hp
  simp [hx]

theorem groupKeys_nodup (w : World) : ∀ l : List Face, l.Pairwise (faceLe w) →
    (∀ f ∈ l, ∀ g ∈ l, sortKey w f = sortKey w g → f.texture = g.texture) →
    ((groupByTex l).map Prod.fst).Nodup
  | [], _, _ => by simp [groupByTex]
  | f :: l, hp, hinj => by
    have hptail : l.Pairwise (faceLe w) := (List.pairwise_cons.mp hp).2
    have hhead : ∀ x ∈ l, faceLe w f x := (List.pairwise_cons.mp hp).1
    have hinjtail : ∀ a ∈ l, ∀ b ∈ l, sortKey w a = sortKey w b → a.texture = b.texture :=
      fun a ha b hb => hinj a (List.mem_cons_of_mem _ ha) b (List.mem_cons_of_mem _ hb)
    have ih := groupKeys_nodup w l hptail hinjtail
    have hshow : groupByTex (f :: l) = groupStep f (groupByTex l) := rfl
    rw [hshow]
    cases hgl : groupByTex l with
    | nil => simp [groupStep]
    | cons q rest =>
      obtain ⟨k, g⟩ := q
      rw [hgl] at ih
      simp only [groupStep]
      split
      · simpa using ih
      · rename_i hne
        have hne' : f.texture ≠ k := fun hh => hne (by simp [hh])
        have hjoin := groupByTex_join l
        rw [hgl] at hjoin
        simp only [List.flatMap_cons] at hjoin
        simp only [List.map_cons, List.nodup_cons]
        refine ⟨?_, by simpa using ih⟩
        intro hmem
        simp only [List.mem_cons, List.mem_map] at hmem
        rcases hmem with hk | ⟨q', hq'rest, hq'tex⟩
        · exact hne' hk
        · -- a later group carries key `f.texture`, contradicting sortedness
          have hq'G : q' ∈ groupByTex l := by
            rw [hgl]; exact List.mem_cons_of_mem _ hq'rest
          obtain ⟨hq'ne, hq'keyed⟩ := groupByTex_mem l q' hq'G
          obtain ⟨x, hx⟩ := List.exists_mem_of_ne_nil _ hq'ne
          have hkgG : ((k, g) : Int × List Face) ∈ groupByTex l := by
            rw [hgl]; exact List.mem_cons_self _ _
          obtain ⟨hgne, hgkeyed⟩ := groupByTex_mem l (k, g) hkgG
          obtain ⟨y, hy⟩ := List.exists_mem_of_ne_nil _ hgne
          have hxl : x ∈ l := groupByTex_mem_of_mem_group hq'G hx
          have hyl : y ∈ l := groupByTex_mem_of_mem_group hkgG hy
          have hxtex : x.texture = f.texture := by
            rw [hq'keyed x hx, hq'tex]
          have hytex : y.texture = k := hgkeyed y hy
          have hskx : sortKey w x = sortKey w f := sortKey_congr w hxtex
          have hne2 : sortKey w y ≠ sortKey w f := by
            intro he
            have := hinj y (List.mem_cons_of_mem _ hyl) f (List.mem_cons_self _ _) he
            rw [hytex] at this
            exact hne' this.symm
          have hfy : faceLe w f y := hhead y hyl
          have hxflat : x ∈ rest.flatMap Prod.snd :=
            List.mem_flatMap.mpr ⟨q', hq'rest, hx⟩
          have hyx : faceLe w y x := by
            have hpl : (g ++ rest.flatMap Prod.snd).Pairwise (faceLe w) := by
              rw [hjoin]; exact hptail
            exact (List.pairwise_append.mp hpl).2.2 y hy x hxflat
          have hyf : faceLe w y f := by
            unfold faceLe at hyx ⊢
            rw [hskx] at hyx
            exact hyx
          have : sortKey w f = sortKey w y := keyLeb_antisymm _ _ hfy hyf
          exact hne2 this.symm

theorem emitGroup_eq (w : World) (parent : Option Nat) (p : Prefab) (g : Int × List Face) :
    emitGroup w parent p g =
      match keepGroup w g with
      | none => p
      | some b => ⟨p.entities ++ [batchEntity parent b]⟩ := by
  simp only [emitGroup, keepGroup]
  cases w.texture g.1 with
  | none => rfl
  | some tex =>
    by_cases hd : tex.flags.should_draw <;> simp [hd, Prefab.add, batchEntity]

theorem foldl_emitGroup (w : World) (parent : Option Nat) :
    ∀ (gs : List (Int × List Face)) (p : Prefab),
    (gs.foldl (emitGroup w parent) p).entities =
      p.entities ++ (gs.filterMap (keepGroup w)).map (batchEntity parent)
  | [], p => by simp
  | g :: gs, p => by
    rw [List.foldl_cons, foldl_emitGroup w parent gs, emitGroup_eq]
    cases hk : keepGroup w g with
    | none => simp [hk]
    | some b => simp [hk]

theorem emitCluster_entities (w : World) (sorter : List Face → List Face)
    (p : Prefab) (c : Int × List Leaf) :
    (emitCluster w sorter p c).entities =
      p.entities ++ (clusterEntity c.1 ::
        (survivingBatches w (sorter (clusterFaces c))).map
          (batchEntity (some p.entities.length))) := by
  show ((groupByTex (sorter (clusterFaces c))).foldl
      (emitGroup w (some p.entities.length)) ⟨p.entities ++ [clusterEntity c.1]⟩).entities = _
  rw [foldl_emitGroup]
  simp [survivingBatches, List.append_assoc]

theorem foldl_emitCluster (w : World) (sorter : List Face → List Face) :
    ∀ (cs : List (Int × List Leaf)) (p : Prefab),
    (cs.foldl (emitCluster w sorter) p).entities =
      p.entities ++ clusterBlocks w sorter p.entities.length cs
  | [], p => by simp [clusterBlocks]
  | c :: cs, p => by
    rw [List.foldl_cons, foldl_emitCluster w sorter cs, emitCluster_entities]
    simp only [clusterBlocks]
    rw [List.append_assoc]
    have hlen : (p.entities ++ (clusterEntity c.1 ::
        (survivingBatches w (sorter (clusterFaces c))).map
          (batchEntity (some p.entities.length)))).length
        = p.entities.length + (1 + (survivingBatches w (sorter (clusterFaces c))).length) := by
      simp [List.length_append]
      omega
    rw [hlen]

theorem foldl_emitModel (w : World) (sorter : List Face → List Face) :
    ∀ (ms : List Model) (p : Prefab),
    (ms.foldl (emitModel w sorter) p).entities =
      p.entities ++ ms.flatMap (fun m => (survivingBatches w (sorter m.faces)).map (batchEntity none))
  | [], p => by simp
  | m :: ms, p => by
    rw [List.foldl_cons, foldl_emitModel w sorter ms]
    have hm : (emitModel w sorter p m).entities =
        p.entities ++ (survivingBatches w (sorter m.faces)).map (batchEntity none) := by
      show ((groupByTex (sorter m.faces)).foldl (emitGroup w none) p).entities = _
      rw [foldl_emitGroup]
      simp [survivingBatches]
    rw [hm, List.append_assoc]
    simp

theorem importPrefab_entities (w : World) (sorter : List Face → List Face) :
    (importPrefab w sorter).entities =
      rootEntity :: (clusterBlocks w sorter 1 w.clusters ++ modelEntities w sorter) := by
  show (w.models.foldl (emitModel w sorter)
    (w.clusters.foldl (emitCluster w sorter) Prefab.new)).entities = _
  rw [foldl_emitModel, foldl_emitCluster]
  simp [Prefab.new, rootEntity, modelEntities]

theorem mem_survivingBatches {w : World} {l : List Face} {b : BspPrefabElement}
    (hb : b ∈ survivingBatches w l) :
    ∃ p ∈ groupByTex l, ∃ tex, w.texture p.1 = some tex ∧
      tex.flags.should_draw = true ∧ b = batchElem tex p.2 := by
  obtain ⟨p, hp, hkeep⟩ := List.mem_filterMap.mp hb
  refine ⟨p, hp, ?_⟩
  unfold keepGroup at hkeep
  split at hkeep
  · simp at hkeep
  · rename_i tex htex
    split at hkeep
    · rename_i hd
      exact ⟨tex, htex, hd, (Option.some_inj.mp hkeep).symm⟩
    · simp at hkeep

theorem mem_clusterBlocks {w : World} {sorter : List Face → List Face} :
    ∀ {cs : List (Int × List Leaf)} {n : Nat} {e : PrefabEntity},
    e ∈ clusterBlocks w sorter n cs →
    (∃ c ∈ cs, e = clusterEntity c.1) ∨
    (∃ c ∈ cs, ∃ b ∈ survivingBatches w (sorter (clusterFaces c)),
      ∃ k, e = batchEntity (some k) b) := by
  intro cs
  induction cs with
  | nil => intro n e h; simp [clusterBlocks] at h
  | cons c cs ih =>
    intro n e h
    simp only [clusterBlocks, List.mem_append, List.mem_cons] at h
    rcases h with (rfl | hmem) | hrest
    · exact Or.inl ⟨c, List.mem_cons_self _ _, rfl⟩
    · obtain ⟨b, hb, rfl⟩ := List.mem_map.mp hmem
      exact Or.inr ⟨c, List.mem_cons_self _ _, b, hb, n, rfl⟩
    · rcases ih hrest with ⟨c', hc', he⟩ | ⟨c', hc', b, hb, k, he⟩
      · exact Or.inl ⟨c', List.mem_cons_of_mem _ hc', he⟩
      · exact Or.inr ⟨c', List.mem_cons_of_mem _ hc', b, hb, k, he⟩

theorem mem_modelEntities {w : World} {sorter : List Face → List Face} {e : PrefabEntity}
    (h : e ∈ modelEntities w sorter) :
    ∃ m ∈ w.models, ∃ b ∈ survivingBatches w (sorter m.faces), e = batchEntity none b := by
  obtain ⟨m, hm, he⟩ := List.mem_flatMap.mp h
  obtain ⟨b, hb, rfl⟩ := List.mem_map.mp he
  exact ⟨m, hm, b, hb, rfl⟩

theorem mesh_faces (w : World) (sorter : List Face → List Face) (hs : validSorter w sorter) :
    ∀ e ∈ (importPrefab w sorter).entities, ∀ d m, e.data = some d → d.mesh = some m →
    ∃ fs : List Face, m = fs.flatMap (fun face => face.vertices.map transcodeVertex) ∧
      fs ≠ [] ∧
      ∀ f ∈ fs, faceOfWorld w f ∧
        ∃ tex, w.texture f.texture = some tex ∧ tex.flags.should_draw = true := by
  intro e he d m hd hm
  rw [importPrefab_entities] at he
  rcases List.mem_cons.mp he with rfl | he
  · simp [rootEntity] at hd
  rcases List.mem_append.mp he with hcb | hme
  · rcases mem_clusterBlocks hcb with ⟨c, _hc, rfl⟩ | ⟨c, hc, b, hb, k, rfl⟩
    · obtain rfl : ({ cluster := some c.1 } : BspPrefabElement) = d := by
        simpa [clusterEntity] using hd
      simp at hm
    · obtain rfl : b = d := by simpa [batchEntity] using hd
      obtain ⟨p, hp, tex, htex, hdraw, rfl⟩ := mem_survivingBatches hb
      simp only [batchElem, Option.some_inj] at hm
      refine ⟨p.2, hm.symm, (groupByTex_mem _ p hp).1, ?_⟩
      intro f hf
      have hkey : f.texture = p.1 := (groupByTex_mem _ p hp).2 f hf
      constructor
      · have hsorted : f ∈ sorter (clusterFaces c) := groupByTex_mem_of_mem_group hp hf
        have hcf : f ∈ clusterFaces c := (hs (clusterFaces c)).1.mem_iff.mp hsorted
        obtain ⟨l, hl, hfl⟩ := List.mem_flatMap.mp hcf
        exact Or.inl ⟨c, hc, l, hl, hfl⟩
      · exact ⟨tex, by rw [hkey]; exact htex, hdraw⟩
  · obtain ⟨mo, hmo, b, hb, rfl⟩ := mem_modelEntities hme
    obtain rfl : b = d := by simpa [batchEntity] using hd
    obtain ⟨p, hp, tex, htex, hdraw, rfl⟩ := mem_survivingBatches hb
    simp only [batchElem, Option.some_inj] at hm
    refine ⟨p.2, hm.symm, (groupByTex_mem _ p hp).1, ?_⟩
    intro f hf
    have hkey : f.texture = p.1 := (groupByTex_mem _ p hp).2 f hf
    constructor
    · have hsorted : f ∈ sorter mo.faces := groupByTex_mem_of_mem_group hp hf
      have hmf : f ∈ mo.faces := (hs mo.faces).1.mem_iff.mp hsorted
      exact Or.inr ⟨mo, hmo, hmf⟩
    · exact ⟨tex, by rw [hkey]; exact htex, hdraw⟩

/-- C1: for every vertex of every face that survives filtering, the emitted
output vertex has position `(x, z, -y)` where the source position is
`(x, y, z)`, normal `(nx, nz, -ny)` where the source normal is
`(nx, ny, nz)`, and the texture coordinate equal to the source surface
texture coordinate unchanged; every emitted mesh is exactly the
concatenation of such transcoded vertices of world faces, so no other
scaling, clamping or normalization is applied. -/
theorem C1_vertex_transform (w : World) (sorter : List Face → List Face)
    (hs : validSorter w sorter) :
    ∀ e ∈ (importPrefab w sorter).entities, ∀ d m, e.data = some d → d.mesh = some m →
    ∃ fs : List Face, (∀ f ∈ fs, faceOfWorld w f) ∧
      m = fs.flatMap (fun face => face.vertices.map (fun vert =>
        ({ position := ⟨vert.position.x, vert.position.z, -vert.position.y⟩
           normal := ⟨vert.normal.x, vert.normal.z, -vert.normal.y⟩
           tex_coord := vert.surface_texcoord } : PosNormTex))) := by
  intro e he d m hd hm
  obtain ⟨fs, hmesh, _, hall⟩ := mesh_faces w sorter hs e he d m hd hm
  exact ⟨fs, fun f hf => (hall f hf).1, hmesh⟩

/-- Witness for C1: the `"brick"` face of `exampleWorld` with position
`(1, 2, 3)` is emitted with position `(1, 3, -2)`. -/
theorem C1_vertex_transform_witness :
    validSorter exampleWorld (sortFaces exampleWorld) ∧
    (∃ fs : List Face, (∀ f ∈ fs, faceOfWorld exampleWorld f) ∧
      [({ position := ⟨1, 3, -2⟩, normal := ⟨4, 6, -5⟩, tex_coord := ⟨7, 8⟩ } : PosNormTex)] =
        fs.flatMap (fun face => face.vertices.map (fun vert =>
          ({ position := ⟨vert.position.x, vert.position.z, -vert.position.y⟩
             normal := ⟨vert.normal.x, vert.normal.z, -vert.normal.y⟩
             tex_coord := vert.surface_texcoord } : PosNormTex)))) := by
  refine ⟨sortFaces_valid exampleWorld, ?_⟩
  have hmem : (importPrefab exampleWorld (sortFaces exampleWorld)).entities.get? 2 =
      some (batchEntity (some 1)
        (batchElem ⟨"brick", ⟨true⟩⟩ [⟨0, [⟨⟨1, 2, 3⟩, ⟨4, 5, 6⟩, ⟨7, 8⟩⟩]⟩])) := rfl
  exact C1_vertex_transform exampleWorld (sortFaces exampleWorld)
    (sortFaces_valid exampleWorld) _ (List.get?_mem hmem) _ _ rfl rfl

/-- C4: every emitted mesh decomposes into faces whose texture index
resolves in the world's texture table, so a face with an unresolvable
index contributes no geometry (the import itself is total: it is a plain
function to a `Prefab`, surfacing no error after decode). -/
theorem C4_unresolved_texture_dropped (w : World) (sorter : List Face → List Face)
    (hs : validSorter w sorter) :
    ∀ e ∈ (importPrefab w sorter).entities, ∀ d m, e.data = some d → d.mesh = some m →
    ∃ fs : List Face, m = fs.flatMap (fun face => face.vertices.map transcodeVertex) ∧
      ∀ f ∈ fs, faceOfWorld w f ∧ (w.texture f.texture).isSome = true := by
  intro e he d m hd hm
  obtain ⟨fs, hmesh, _, hall⟩ := mesh_faces w sorter hs e he d m hd hm
  refine ⟨fs, hmesh, ?_⟩
  intro f hf
  obtain ⟨tex, htex, _⟩ := (hall f hf).2
  exact ⟨(hall f hf).1, by rw [htex]; rfl⟩

/-- Witness for C4: in `exampleWorld` one face has the out-of-range texture
index `5`; the only emitted mesh still decomposes into resolvable faces. -/
theorem C4_unresolved_texture_dropped_witness :
    validSorter exampleWorld (sortFaces exampleWorld) ∧
    (∃ fs : List Face,
      [({ position := ⟨1, 3, -2⟩, normal := ⟨4, 6, -5⟩, tex_coord := ⟨7, 8⟩ } : PosNormTex)] =
        fs.flatMap (fun face => face.vertices.map transcodeVertex) ∧
      ∀ f ∈ fs, faceOfWorld exampleWorld f ∧
        (exampleWorld.texture f.texture).isSome = true) := by
  refine ⟨sortFaces_valid exampleWorld, ?_⟩
  have hmem : (importPrefab exampleWorld (sortFaces exampleWorld)).entities.get? 2 =
      some (batchEntity (some 1)
        (batchElem ⟨"brick", ⟨true⟩⟩ [⟨0, [⟨⟨1, 2, 3⟩, ⟨4, 5, 6⟩, ⟨7, 8⟩⟩]⟩])) := rfl
  exact C4_unresolved_texture_dropped exampleWorld (sortFaces exampleWorld)
    (sortFaces_valid exampleWorld) _ (List.get?_mem hmem) _ _ rfl rfl

/-- C5: every emitted mesh (cluster-child and top-level model node alike —
the statement ranges over all entities of the output) decomposes into faces
whose resolved texture is draw-eligible, so no renderable node contains
vertices of a face whose texture has `should_draw = false`. -/
theorem C5_nodraw_faces_excluded (w : World) (sorter : List Face → List Face)
    (hs : validSorter w sorter) :
    ∀ e ∈ (importPrefab w sorter).entities, ∀ d m, e.data = some d → d.mesh = some m →
    ∃ fs : List Face, m = fs.flatMap (fun face => face.vertices.map transcodeVertex) ∧
      ∀ f ∈ fs, faceOfWorld w f ∧
        ∃ tex, w.texture f.texture = some tex ∧ tex.flags.should_draw = true := by
  intro e he d m hd hm
  obtain ⟨fs, hmesh, _, hall⟩ := mesh_faces w sorter hs e he d m hd hm
  exact ⟨fs, hmesh, fun f hf => ⟨(hall f hf).1, (hall f hf).2⟩⟩

/-- Witness for C5: in `exampleWorld` the `"sky"` face is not draw-eligible;
the only emitted mesh decomposes into draw-eligible faces. -/
theorem C5_nodraw_faces_excluded_witness :
    validSorter exampleWorld (sortFaces exampleWorld) ∧
    (∃ fs : List Face,
      [({ position := ⟨1, 3, -2⟩, normal := ⟨4, 6, -5⟩, tex_coord := ⟨7, 8⟩ } : PosNormTex)] =
        fs.flatMap (fun face => face.vertices.map transcodeVertex) ∧
      ∀ f ∈ fs, faceOfWorld exampleWorld f ∧
        ∃ tex, exampleWorld.texture f.texture = some tex ∧
          tex.flags.should_draw = true) := by
  refine ⟨sortFaces_valid exampleWorld, ?_⟩
  have hmem : (importPrefab exampleWorld (sortFaces exampleWorld)).entities.get? 2 =
      some (batchEntity (some 1)
        (batchElem ⟨"brick", ⟨true⟩⟩ [⟨0, [⟨⟨1, 2, 3⟩, ⟨4, 5, 6⟩, ⟨7, 8⟩⟩]⟩])) := rfl
  exact C5_nodraw_faces_excluded exampleWorld (sortFaces exampleWorld)
    (sortFaces_valid exampleWorld) _ (List.get?_mem hmem) _ _ rfl rfl

/-- Counterexample to C6 as stated: in `emptyFaceWorld` a draw-eligible face
with an empty vertex sequence produces a renderable node whose mesh payload
is the empty vertex list. -/
theorem C6_empty_mesh_cex :
    ∃ e ∈ (importPrefab emptyFaceWorld (sortFaces emptyFaceWorld)).entities,
      ∃ d, e.data = some d ∧ d.mesh = some ([] : List PosNormTex) := by
  have hmem : (importPrefab emptyFaceWorld (sortFaces emptyFaceWorld)).entities.get? 2 =
      some (batchEntity (some 1) (batchElem ⟨"T", ⟨true⟩⟩ [⟨0, []⟩])) := rfl
  exact ⟨_, List.get?_mem hmem, _, rfl, rfl⟩

/-- C6 amended: every renderable node's face group is non-empty, so whenever
every face of the world has at least one vertex, every emitted mesh payload
is non-empty (a texture group with zero surviving faces produces no node;
only a zero-vertex face can produce an empty mesh). -/
theorem C6_nonempty_mesh_amended (w : World) (sorter : List Face → List Face)
    (hs : validSorter w sorter)
    (hcl : ∀ c ∈ w.clusters, ∀ l ∈ c.2, ∀ f ∈ l.faces, f.vertices ≠ [])
    (hmo : ∀ mo ∈ w.models, ∀ f ∈ mo.faces, f.vertices ≠ []) :
    ∀ e ∈ (importPrefab w sorter).entities, ∀ d m, e.data = some d → d.mesh = some m →
      m ≠ [] := by
  intro e he d m hd hm hnil
  obtain ⟨fs, hmesh, hne, hall⟩ := mesh_faces w sorter hs e he d m hd hm
  rw [hnil] at hmesh
  obtain ⟨f, hf⟩ := List.exists_mem_of_ne_nil _ hne
  have hfv : f.vertices ≠ [] := by
    rcases (hall f hf).1 with ⟨c, hc, l, hl, hfl⟩ | ⟨mo, hmo', hfl⟩
    · exact hcl c hc l hl f hfl
    · exact hmo mo hmo' f hfl
  have hmapnil : f.vertices.map transcodeVertex = [] := by
    have := List.flatMap_eq_nil_iff.mp hmesh.symm
    exact this f hf
  exact hfv (List.map_eq_nil_iff.mp hmapnil)

/-- Witness for the amended C6 at `exampleWorld`, whose faces all have one
vertex: the emitted mesh is non-empty. -/
theorem C6_nonempty_mesh_amended_witness :
    validSorter exampleWorld (sortFaces exampleWorld) ∧
    (∀ c ∈ exampleWorld.clusters, ∀ l ∈ c.2, ∀ f ∈ l.faces, f.vertices ≠ []) ∧
    (∀ mo ∈ exampleWorld.models, ∀ f ∈ mo.faces, f.vertices ≠ []) ∧
    ([({ position := ⟨1, 3, -2⟩, normal := ⟨4, 6, -5⟩, tex_coord := ⟨7, 8⟩ } : PosNormTex)] ≠
      ([] : List PosNormTex)) := by
  have hmem : (importPrefab exampleWorld (sortFaces exampleWorld)).entities.get? 2 =
      some (batchEntity (some 1)
        (batchElem ⟨"brick", ⟨true⟩⟩ [⟨0, [⟨⟨1, 2, 3⟩, ⟨4, 5, 6⟩, ⟨7, 8⟩⟩]⟩])) := rfl
  refine ⟨sortFaces_valid exampleWorld, by decide, by decide, ?_⟩
  exact C6_nonempty_mesh_amended exampleWorld (sortFaces exampleWorld)
    (sortFaces_valid exampleWorld) (by decide) (by decide) _ (List.get?_mem hmem) _ _ rfl rfl

theorem clusterBlocks_countP (w : World) (sorter : List Face → List Face) (id : Int) :
    ∀ (cs : List (Int × List Leaf)) (n : Nat),
    (clusterBlocks w sorter n cs).countP (isClusterNodeId id) =
      cs.countP (fun c => c.1 == id)
  | [], _ => by simp [clusterBlocks]
  | c :: cs, n => by
    simp only [clusterBlocks, List.countP_append, List.countP_cons]
    rw [clusterBlocks_countP w sorter id cs]
    have hbatch : ((survivingBatches w (sorter (clusterFaces c))).map
        (batchEntity (some n))).countP (isClusterNodeId id) = 0 := by
      rw [List.countP_eq_zero]
      intro e he
      obtain ⟨b, hb, rfl⟩ := List.mem_map.mp he
      obtain ⟨p, hp, tex, _, _, rfl⟩ := mem_survivingBatches hb
      simp [isClusterNodeId, batchEntity, batchElem]
    have hcl : isClusterNodeId id (clusterEntity c.1) = (c.1 == id) := by
      by_cases h : c.1 = id <;> simp [isClusterNodeId, clusterEntity, h]
    rw [hbatch, hcl]
    omega

theorem modelEntities_countP (w : World) (sorter : List Face → List Face) (id : Int) :
    (modelEntities w sorter).countP (isClusterNodeId id) = 0 := by
  rw [List.countP_eq_zero]
  intro e he
  obtain ⟨mo, hmo, b, hb, rfl⟩ := mem_modelEntities he
  obtain ⟨p, hp, tex, _, _, rfl⟩ := mem_survivingBatches hb
  simp [isClusterNodeId, batchEntity, batchElem]

/-- C7: when the World's cluster ids are distinct (as produced by the
cluster iterator), each id present in the World yields exactly one cluster
node in the output, even when that cluster has no leaves or no surviving
faces. -/
theorem C7_one_cluster_node_per_id (w : World) (sorter : List Face → List Face)
    (hnd : (w.clusters.map Prod.fst).Nodup) (id : Int)
    (hid : id ∈ w.clusters.map Prod.fst) :
    (importPrefab w sorter).entities.countP (isClusterNodeId id) = 1 := by
  rw [importPrefab_entities]
  rw [List.countP_cons, List.countP_append, clusterBlocks_countP, modelEntities_countP]
  have hcnt : w.clusters.countP (fun c => c.1 == id) = (w.clusters.map Prod.fst).count id := by
    rw [List.count, List.countP_map]
    rfl
  rw [hcnt, List.count_eq_one_of_mem hnd hid]
  simp [isClusterNodeId, rootEntity]

/-- Witness for C7: a world with one leafless cluster (id `3`) still yields
exactly one cluster node carrying id `3`. -/
theorem C7_one_cluster_node_per_id_witness :
    (emptyClusterWorld.clusters.map Prod.fst).Nodup ∧
    (3 : Int) ∈ emptyClusterWorld.clusters.map Prod.fst ∧
    (importPrefab emptyClusterWorld (sortFaces emptyClusterWorld)).entities.countP
      (isClusterNodeId 3) = 1 :=
  ⟨by decide, by decide,
    C7_one_cluster_node_per_id emptyClusterWorld (sortFaces emptyClusterWorld)
      (by decide) 3 (by decide)⟩

/-- C8: every texture reference the pipeline emits is a `FileOrElse`
reference made of the resolved texture's real name, srgb metadata and the
fallback function, so an external resolution failure resolves to the
bundled placeholder instead of failing; the emitted reference itself still
carries the real name (no parse-time substitution). -/
theorem C8_texture_fallback (w : World) (sorter : List Face → List Face) :
    ∀ e ∈ (importPrefab w sorter).entities, ∀ d t, e.data = some d → d.texture = some t →
    ∃ name, t = AssetPrefab.fileOrElse name TextureMetadata.srgb MISSING_TEXTURE_FUNCTION ∧
      (∃ tex ∈ w.textures, tex.name = name ∧ tex.flags.should_draw = true) ∧
      ∀ load err, load name = Except.error err →
        t.resolve load = Except.ok MISSING_TEXTURE := by
  intro e he d t hd ht
  rw [importPrefab_entities] at he
  rcases List.mem_cons.mp he with rfl | he
  · simp [rootEntity] at hd
  have hb : ∃ l b, b ∈ survivingBatches w l ∧ d = b := by
    rcases List.mem_append.mp he with hcb | hme
    · rcases mem_clusterBlocks hcb with ⟨c, _, rfl⟩ | ⟨c, hc, b, hbmem, k, rfl⟩
      · obtain rfl : ({ cluster := some c.1 } : BspPrefabElement) = d := by
          simpa [clusterEntity] using hd
        simp at ht
      · exact ⟨_, b, hbmem, by simpa [batchEntity] using hd.symm⟩
    · obtain ⟨mo, hmo, b, hbmem, rfl⟩ := mem_modelEntities hme
      exact ⟨_, b, hbmem, by simpa [batchEntity] using hd.symm⟩
  obtain ⟨l, b, hbmem, rfl⟩ := hb
  obtain ⟨p, hp, tex, htex, hdraw, rfl⟩ := mem_survivingBatches hbmem
  simp only [batchElem, Option.some_inj] at ht
  have htw : tex ∈ w.textures := by
    unfold World.texture at htex
    split at htex
    · simp at htex
    · exact List.get?_mem htex
  refine ⟨tex.name, ht.symm, ⟨tex, htw, rfl, hdraw⟩, ?_⟩
  intro load err herr
  rw [← ht]
  simp [AssetPrefab.resolve, herr, MISSING_TEXTURE_FUNCTION]

/-- Witness for C8: the `"brick"` reference of `exampleWorld` resolves to
the bundled placeholder under a loader that always fails. -/
theorem C8_texture_fallback_witness :
    ∃ name,
      (AssetPrefab.fileOrElse "brick" TextureMetadata.srgb MISSING_TEXTURE_FUNCTION) =
        AssetPrefab.fileOrElse name TextureMetadata.srgb MISSING_TEXTURE_FUNCTION ∧
      (∃ tex ∈ exampleWorld.textures, tex.name = name ∧ tex.flags.should_draw = true) ∧
      ∀ load err, load name = Except.error err →
        (AssetPrefab.fileOrElse "brick" TextureMetadata.srgb
          MISSING_TEXTURE_FUNCTION).resolve load = Except.ok MISSING_TEXTURE := by
  have hmem : (importPrefab exampleWorld (sortFaces exampleWorld)).entities.get? 2 =
      some (batchEntity (some 1)
        (batchElem ⟨"brick", ⟨true⟩⟩ [⟨0, [⟨⟨1, 2, 3⟩, ⟨4, 5, 6⟩, ⟨7, 8⟩⟩]⟩])) := rfl
  exact C8_texture_fallback exampleWorld (sortFaces exampleWorld) _
    (List.get?_mem hmem) _ _ rfl rfl

theorem clusterBlocks_get (w : World) (sorter : List Face → List Face) :
    ∀ (cs : List (Int × List Leaf)) (n j : Nat) (e : PrefabEntity),
    (clusterBlocks w sorter n cs).get? j = some e →
    ∀ d, e.data = some d → d.mesh.isSome = true → ∀ pa, e.parent = some pa →
    n ≤ pa ∧ pa - n < j ∧ ∃ c ∈ cs,
      (clusterBlocks w sorter n cs).get? (pa - n) = some (clusterEntity c.1) ∧
      d ∈ survivingBatches w (sorter (clusterFaces c))
  | [], n, j, e => by
    intro h
    simp [clusterBlocks] at h
  | c :: cs, n, j, e => by
    intro hget d hd hmesh pa hpa
    have hrw : clusterBlocks w sorter n (c :: cs) =
        clusterEntity c.1 ::
          ((survivingBatches w (sorter (clusterFaces c))).map (batchEntity (some n)) ++
            clusterBlocks w sorter
              (n + (1 + (survivingBatches w (sorter (clusterFaces c))).length)) cs) := by
      simp [clusterBlocks]
    rw [hrw] at hget
    cases j with
    | zero =>
      rw [List.get?_cons_zero] at hget
      obtain rfl : clusterEntity c.1 = e := Option.some_inj.mp hget
      obtain rfl : ({ cluster := some c.1 } : BspPrefabElement) = d := by
        simpa [clusterEntity] using hd
      simp at hmesh
    | succ jj =>
      rw [List.get?_cons_succ] at hget
      by_cases hjj : jj < (survivingBatches w (sorter (clusterFaces c))).length
      · rw [List.get?_append (by simpa using hjj)] at hget
        rw [List.get?_map] at hget
        cases hbj : (survivingBatches w (sorter (clusterFaces c))).get? jj with
        | none => rw [hbj] at hget; simp at hget
        | some b =>
          rw [hbj] at hget
          simp only [Option.map_some'] at hget
          obtain rfl : batchEntity (some n) b = e := Option.some_inj.mp hget
          obtain rfl : b = d := by simpa [batchEntity] using hd
          obtain rfl : n = pa := by simpa [batchEntity] using hpa
          refine ⟨Nat.le_refl _, by omega, c, List.mem_cons_self _ _, ?_, List.get?_mem hbj⟩
          rw [hrw, Nat.sub_self, List.get?_cons_zero]
      · rw [List.get?_append_right (by simpa using Nat.le_of_not_lt hjj)] at hget
        have hget' : (clusterBlocks w sorter
            (n + (1 + (survivingBatches w (sorter (clusterFaces c))).length)) cs).get?
              (jj - (survivingBatches w (sorter (clusterFaces c))).length) = some e := by
          simpa using hget
        obtain ⟨hle, hlt, c', hc', hcl, hdmem⟩ :=
          clusterBlocks_get w sorter cs
            (n + (1 + (survivingBatches w (sorter (clusterFaces c))).length))
            (jj - (survivingBatches w (sorter (clusterFaces c))).length) e hget'
            d hd hmesh pa hpa
        refine ⟨by omega, by omega, c', List.mem_cons_of_mem _ hc', ?_, hdmem⟩
        rw [hrw]
        have h1 : pa - n = (pa - n - 1) + 1 := by omega
        rw [h1, List.get?_cons_succ, List.get?_append_right (by simp; omega)]
        have h2 : pa - n - 1 -
            ((survivingBatches w (sorter (clusterFaces c))).map (batchEntity (some n))).length =
            pa - (n + (1 + (survivingBatches w (sorter (clusterFaces c))).length)) := by
          simp
          omega
        rw [h2]
        exact hcl

/-- C9: the parent of every parented mesh node is an earlier index that
holds the cluster node of a world cluster whose surviving batches include
this node's element (model nodes are parentless, so the statement is
vacuous for them); in particular each cluster node is created before any of
its renderable children. -/
theorem C9_cluster_parent_before_children (w : World) (sorter : List Face → List Face) :
    ∀ i e, (importPrefab w sorter).entities.get? i = some e →
    ∀ d, e.data = some d → d.mesh.isSome = true →
    ∀ pa, e.parent = some pa →
    pa < i ∧ ∃ c ∈ w.clusters,
      (importPrefab w sorter).entities.get? pa = some (clusterEntity c.1) ∧
      d ∈ survivingBatches w (sorter (clusterFaces c)) := by
  intro i e hget d hd hmesh pa hpa
  rw [importPrefab_entities] at hget ⊢
  cases i with
  | zero =>
    rw [List.get?_cons_zero] at hget
    obtain rfl : rootEntity = e := Option.some_inj.mp hget
    simp [rootEntity] at hd
  | succ ii =>
    rw [List.get?_cons_succ] at hget
    by_cases hii : ii < (clusterBlocks w sorter 1 w.clusters).length
    · rw [List.get?_append hii] at hget
      obtain ⟨hle, hlt, c, hc, hcl, hdmem⟩ :=
        clusterBlocks_get w sorter w.clusters 1 ii e hget d hd hmesh pa hpa
      refine ⟨by omega, c, hc, ?_, hdmem⟩
      have h1 : pa = (pa - 1) + 1 := by omega
      rw [h1, List.get?_cons_succ, List.get?_append (by omega)]
      exact hcl
    · rw [List.get?_append_right (Nat.le_of_not_lt hii)] at hget
      obtain ⟨mo, hmo, b, hb, rfl⟩ := mem_modelEntities (List.get?_mem hget)
      simp [batchEntity] at hpa

/-- Witness for C9 at `exampleWorld`: the `"brick"` batch node at index `2`
is parented to index `1`, where the cluster node of cluster `7` sits. -/
theorem C9_cluster_parent_before_children_witness :
    1 < 2 ∧ ∃ c ∈ exampleWorld.clusters,
      (importPrefab exampleWorld (sortFaces exampleWorld)).entities.get? 1 =
        some (clusterEntity c.1) ∧
      (batchElem ⟨"brick", ⟨true⟩⟩ [⟨0, [⟨⟨1, 2, 3⟩, ⟨4, 5, 6⟩, ⟨7, 8⟩⟩]⟩]) ∈
        survivingBatches exampleWorld (sortFaces exampleWorld (clusterFaces c)) :=
  C9_cluster_parent_before_children exampleWorld (sortFaces exampleWorld) 2 _ rfl _ rfl rfl 1 rfl

/-- C10: the model-derived part of the output is the per-model concatenation
of each model's own surviving batches (the face buffer is conceptually
cleared between models: each model's faces are sorted and grouped
independently, so a texture shared by two models yields two nodes), and
every model node is top-level, with no parent and no cluster id. -/
theorem C10_models_batched_per_model (w : World) (sorter : List Face → List Face) :
    ∃ front, (importPrefab w sorter).entities =
      front ++ w.models.flatMap (fun mo =>
        (survivingBatches w (sorter mo.faces)).map (batchEntity none)) ∧
    ∀ mo ∈ w.models, ∀ b ∈ survivingBatches w (sorter mo.faces),
      (batchEntity none b).parent = none ∧ b.cluster = none := by
  refine ⟨rootEntity :: clusterBlocks w sorter 1 w.clusters, ?_, ?_⟩
  · rw [importPrefab_entities]
    simp [modelEntities]
  · intro mo hmo b hb
    obtain ⟨p, hp, tex, _, _, rfl⟩ := mem_survivingBatches hb
    exact ⟨rfl, rfl⟩

/-- Witness for C10: in `twoModelWorld` the two models share texture
`"wall"` and yield two separate top-level mesh nodes. -/
theorem C10_models_batched_per_model_witness :
    (∃ front, (importPrefab twoModelWorld (sortFaces twoModelWorld)).entities =
      front ++ twoModelWorld.models.flatMap (fun mo =>
        (survivingBatches twoModelWorld (sortFaces twoModelWorld mo.faces)).map
          (batchEntity none)) ∧
    ∀ mo ∈ twoModelWorld.models,
      ∀ b ∈ survivingBatches twoModelWorld (sortFaces twoModelWorld mo.faces),
      (batchEntity none b).parent = none ∧ b.cluster = none) ∧
    (importPrefab twoModelWorld (sortFaces twoModelWorld)).entities.map
      (fun e => (e.parent, e.data.bind BspPrefabElement.mesh)) =
      [(none, none), (none, some [transcodeVertex (vtx 1)]),
        (none, some [transcodeVertex (vtx 2)])] :=
  ⟨C10_models_batched_per_model twoModelWorld (sortFaces twoModelWorld), by decide⟩

/-- C2 amended: provided distinct texture indices among the cluster's faces
have distinct sort keys (no two indices resolve to equal names and at most
one referenced index is unresolvable), any permitted result of the unstable
sort is partitioned into exactly one group per distinct texture index:
group keys are pairwise distinct, a key occurs iff some collected face
references it, and every face of a group carries the group's key. -/
theorem C2_grouping_amended (w : World) (sorter : List Face → List Face)
    (hs : validSorter w sorter) (c : Int × List Leaf) (hc : c ∈ w.clusters)
    (hinj : ∀ f ∈ clusterFaces c, ∀ g ∈ clusterFaces c,
      sortKey w f = sortKey w g → f.texture = g.texture) :
    ((groupByTex (sorter (clusterFaces c))).map Prod.fst).Nodup ∧
    (∀ t : Int, t ∈ (groupByTex (sorter (clusterFaces c))).map Prod.fst ↔
      ∃ f ∈ clusterFaces c, f.texture = t) ∧
    (∀ p ∈ groupByTex (sorter (clusterFaces c)), ∀ f ∈ p.2, f.texture = p.1) := by
  obtain ⟨hperm, hpw⟩ := hs (clusterFaces c)
  refine ⟨?_, ?_, fun p hp => (groupByTex_mem _ p hp).2⟩
  · refine groupKeys_nodup w _ hpw ?_
    intro f hf g hg hkey
    exact hinj f (hperm.mem_iff.mp hf) g (hperm.mem_iff.mp hg) hkey
  · intro t
    constructor
    · intro ht
      obtain ⟨p, hp, rfl⟩ := List.mem_map.mp ht
      obtain ⟨hne, hkeyed⟩ := groupByTex_mem _ p hp
      obtain ⟨f, hf⟩ := List.exists_mem_of_ne_nil _ hne
      exact ⟨f, hperm.mem_iff.mp (groupByTex_mem_of_mem_group hp hf), hkeyed f hf⟩
    · rintro ⟨f, hf, rfl⟩
      have hfl : f ∈ sorter (clusterFaces c) := hperm.mem_iff.mpr hf
      have hfj : f ∈ (groupByTex (sorter (clusterFaces c))).flatMap Prod.snd := by
        rw [groupByTex_join]
        exact hfl
      obtain ⟨p, hp, hfp⟩ := List.mem_flatMap.mp hfj
      exact List.mem_map.mpr ⟨p, hp, ((groupByTex_mem _ p hp).2 f hfp).symm⟩

/-- Witness for the amended C2 at `exampleWorld`, whose three referenced
indices have the three distinct keys `"brick"`, `"sky"` and `none`. -/
theorem C2_grouping_amended_witness :
    validSorter exampleWorld (sortFaces exampleWorld) ∧
    exampleCluster ∈ exampleWorld.clusters ∧
    (∀ f ∈ clusterFaces exampleCluster, ∀ g ∈ clusterFaces exampleCluster,
      sortKey exampleWorld f = sortKey exampleWorld g → f.texture = g.texture) ∧
    (((groupByTex (sortFaces exampleWorld (clusterFaces exampleCluster))).map Prod.fst).Nodup ∧
      (∀ t : Int, t ∈ (groupByTex (sortFaces exampleWorld
          (clusterFaces exampleCluster))).map Prod.fst ↔
        ∃ f ∈ clusterFaces exampleCluster, f.texture = t) ∧
      (∀ p ∈ groupByTex (sortFaces exampleWorld (clusterFaces exampleCluster)),
        ∀ f ∈ p.2, f.texture = p.1)) :=
  ⟨sortFaces_valid exampleWorld, by decide, by decide,
    C2_grouping_amended exampleWorld (sortFaces exampleWorld)
      (sortFaces_valid exampleWorld) exampleCluster (by decide) (by decide)⟩

/-- Counterexample to C2 as stated: in `dupNameWorld` two texture-table
entries share the name `"A"`; the cluster's faces reference indices
`0, 1, 0`, every face has the same sort key, and the (sorted) sequence is
grouped into THREE groups with keys `[0, 1, 0]` — texture index `0` does
not end up in a single group — so the import emits three mesh nodes for two
distinct texture references. -/
theorem C2_grouping_cex :
    (groupByTex (sortFaces dupNameWorld
      [⟨0, [vtx 1]⟩, ⟨1, [vtx 2]⟩, ⟨0, [vtx 3]⟩])).map Prod.fst = [0, 1, 0] ∧
    (importPrefab dupNameWorld (sortFaces dupNameWorld)).entities.map
      (fun e => e.data.bind BspPrefabElement.mesh) =
      [none, none, some [transcodeVertex (vtx 1)], some [transcodeVertex (vtx 2)],
        some [transcodeVertex (vtx 3)]] :=
  ⟨by decide, by decide⟩

/-- C3 amended: the source's `sort_unstable_by_key` only guarantees a
key-sorted permutation of the collected faces — the relative order of
equal-key faces is unspecified — and each emitted batch holds the
transcoded vertices of one contiguous group of that sorted sequence, in
sorted-face order, each face's vertices in the face's internal order. -/
theorem C3_batch_order_amended (w : World) (sorter : List Face → List Face)
    (hs : validSorter w sorter) :
    ∀ e ∈ (importPrefab w sorter).entities, ∀ d m, e.data = some d → d.mesh = some m →
    ∃ fs g pre post,
      ((∃ c ∈ w.clusters, fs = clusterFaces c) ∨ (∃ mo ∈ w.models, fs = mo.faces)) ∧
      (sorter fs).Perm fs ∧ (sorter fs).Pairwise (faceLe w) ∧
      sorter fs = pre ++ g ++ post ∧
      m = g.flatMap (fun face => face.vertices.map transcodeVertex) := by
  intro e he d m hd hm
  rw [importPrefab_entities] at he
  rcases List.mem_cons.mp he with rfl | he
  · simp [rootEntity] at hd
  rcases List.mem_append.mp he with hcb | hme
  · rcases mem_clusterBlocks hcb with ⟨c, _, rfl⟩ | ⟨c, hc, b, hb, k, rfl⟩
    · obtain rfl : ({ cluster := some c.1 } : BspPrefabElement) = d := by
        simpa [clusterEntity] using hd
      simp at hm
    · obtain rfl : b = d := by simpa [batchEntity] using hd
      obtain ⟨p, hp, tex, htex, hdraw, rfl⟩ := mem_survivingBatches hb
      simp only [batchElem, Option.some_inj] at hm
      obtain ⟨pre, post, hdec⟩ := groupByTex_decomp _ p hp
      exact ⟨clusterFaces c, p.2, pre, post, Or.inl ⟨c, hc, rfl⟩,
        (hs _).1, (hs _).2, hdec, hm.symm⟩
  · obtain ⟨mo, hmo, b, hb, rfl⟩ := mem_modelEntities hme
    obtain rfl : b = d := by simpa [batchEntity] using hd
    obtain ⟨p, hp, tex, htex, hdraw, rfl⟩ := mem_survivingBatches hb
    simp only [batchElem, Option.some_inj] at hm
    obtain ⟨pre, post, hdec⟩ := groupByTex_decomp _ p hp
    exact ⟨mo.faces, p.2, pre, post, Or.inr ⟨mo, hmo, rfl⟩,
      (hs _).1, (hs _).2, hdec, hm.symm⟩

/-- Witness for the amended C3 at `exampleWorld`. -/
theorem C3_batch_order_amended_witness :
    validSorter exampleWorld (sortFaces exampleWorld) ∧
    ∃ fs g pre post,
      ((∃ c ∈ exampleWorld.clusters, fs = clusterFaces c) ∨
        (∃ mo ∈ exampleWorld.models, fs = mo.faces)) ∧
      (sortFaces exampleWorld fs).Perm fs ∧
      (sortFaces exampleWorld fs).Pairwise (faceLe exampleWorld) ∧
      sortFaces exampleWorld fs = pre ++ g ++ post ∧
      [({ position := ⟨1, 3, -2⟩, normal := ⟨4, 6, -5⟩, tex_coord := ⟨7, 8⟩ } : PosNormTex)] =
        g.flatMap (fun face => face.vertices.map transcodeVertex) := by
  have hmem : (importPrefab exampleWorld (sortFaces exampleWorld)).entities.get? 2 =
      some (batchEntity (some 1)
        (batchElem ⟨"brick", ⟨true⟩⟩ [⟨0, [⟨⟨1, 2, 3⟩, ⟨4, 5, 6⟩, ⟨7, 8⟩⟩]⟩])) := rfl
  exact ⟨sortFaces_valid exampleWorld,
    C3_batch_order_amended exampleWorld (sortFaces exampleWorld)
      (sortFaces_valid exampleWorld) _ (List.get?_mem hmem) _ _ rfl rfl⟩

/-- Counterexample to C3 as stated: `swapSorter` satisfies the contract of
`sort_unstable_by_key` for `eqKeyWorld` (a key-sorted permutation on every
input) yet reverses the two equal-key faces, so a permitted execution emits
the batch's vertices NOT in original face order. -/
theorem C3_sort_stability_cex :
    validSorter eqKeyWorld swapSorter ∧
    (importPrefab eqKeyWorld swapSorter).entities.map
      (fun e => e.data.bind BspPrefabElement.mesh) =
      [none, none, some [transcodeVertex (vtx 2), transcodeVertex (vtx 1)]] ∧
    [transcodeVertex (vtx 2), transcodeVertex (vtx 1)] ≠
      [transcodeVertex (vtx 1), transcodeVertex (vtx 2)] := by
  refine ⟨?_, by decide, by decide⟩
  intro fs
  unfold swapSorter
  split
  · rename_i heq
    subst heq
    exact ⟨by decide, by decide⟩
  · exact sortFaces_valid eqKeyWorld fs
